import Mathlib

/-!
# Verification of the AITextAssistant retrieval pipeline

Shallow embedding of the retrieval / suggestion modules of the
AITextAssistant repository:

* `retrieval/ranker.py`        — `Ranker.rank_results`, `Ranker.get_best_context`
* `retrieval/local_search.py`  — `LocalSearch.search`, `LocalSearch.get_context`
* `retrieval/online_search.py` — `OnlineSearch.search`, `OnlineSearch.clear_cache`
* `embeddings/vector_store.py` — `VectorStore.search`, `VectorStore.get_stats`
* `ingestion/chunker.py`       — `TextChunker.chunk_text`, `TextChunker._create_chunk`
* `suggestion/autocomplete.py` — `Autocomplete.get_suggestions`,
  `Autocomplete._extract_query`, `Autocomplete._generate_suggestion_from_result`

Python strings are modelled as `List Char` (`PyStr`), similarity scores
(Python floats compared with `>=`) as exact rationals `ℚ`, Python `dict`
records as Lean structures, and the fallible collaborators (the sentence
embedder, the FAISS index, the Wikipedia client, the llama generator) as
oracle functions returning `Except PyErr _`; a `try/except` block in the
Python source becomes a `match` on that `Except`.  Effectful collaborator
invocations are counted explicitly so that "no external fetch happened"
is a provable statement.
-/

/-- A Python string, modelled as its list of characters. -/
abbrev PyStr := List Char

/-- Opaque model of a Python exception value. -/
structure PyErr where
  msg : PyStr
deriving DecidableEq, Repr

namespace PyString

/-- Python whitespace characters (the ASCII ones; all inputs in this
development are ASCII). -/
def isSpace (c : Char) : Bool :=
  c = ' ' || c = '\t' || c = '\n' || c = '\r' || c = '\x0b' || c = '\x0c'

/-- Python `str.strip()` with no argument: remove leading and trailing
whitespace. -/
def strip (s : PyStr) : PyStr :=
  ((s.dropWhile isSpace).reverse.dropWhile isSpace).reverse

/-- Python truthiness test `not s or not s.strip()`: the string is empty or
whitespace-only. -/
def isBlank (s : PyStr) : Bool :=
  (strip s).isEmpty

/-- Python `s.lower()` (ASCII case folding). -/
def lower (s : PyStr) : PyStr := s.map Char.toLower

/-- First index at which `needle` occurs in `hay` as a contiguous substring
(`None` when it does not occur).  Model of the scan underlying Python's
`in`, `str.split` and `str.find`. -/
def findSub (needle : PyStr) : PyStr → Option Nat
  | [] => if needle = [] then some 0 else none
  | c :: cs =>
    if needle.isPrefixOf (c :: cs) then some 0
    else (findSub needle cs).map (· + 1)

/-- Python `needle in hay` for strings. -/
def containsSub (needle hay : PyStr) : Bool :=
  (findSub needle hay).isSome

/-- Fuelled worker for `split`: repeatedly cut at the leftmost occurrence of
the (nonempty) separator, as Python `str.split(sep)` does. -/
def splitGo (sep : PyStr) : Nat → PyStr → List PyStr
  | 0, s => [s]
  | fuel + 1, s =>
    match findSub sep s with
    | none => [s]
    | some i => s.take i :: splitGo sep fuel (s.drop (i + sep.length))

/-- Python `s.split(sep)` for a nonempty separator. -/
def split (sep s : PyStr) : List PyStr :=
  splitGo sep (s.length + 1) s

/-- Python `sep.join(parts)`. -/
def join (sep : PyStr) : List PyStr → PyStr
  | [] => []
  | [p] => p
  | p :: ps => p ++ sep ++ join sep ps

/-- Python `s.endswith(suffix)`. -/
def endsWith (suffix s : PyStr) : Bool :=
  suffix.isSuffixOf s

/-- Last index at which `needle` occurs in `hay` (`None` when absent).
Model of the right-to-left scan of `str.rsplit(sep, 1)`. -/
def findLastSub (needle : PyStr) : PyStr → Option Nat
  | [] => if needle = [] then some 0 else none
  | c :: cs =>
    match (findLastSub needle cs).map (· + 1) with
    | some i => some i
    | none => if needle.isPrefixOf (c :: cs) then some 0 else none

/-- Python `s.rsplit(sep, 1)[0]`: everything before the last occurrence of
`sep`, or the whole string when `sep` does not occur. -/
def rsplitOnceHead (sep s : PyStr) : PyStr :=
  match findLastSub sep s with
  | none => s
  | some i => s.take i

/-- Python `s[-n:]`: the last `n` characters (the whole string when it is
shorter than `n`).  For `n = 0` Python's `-0` is `0`, so `s[-0:]` is the
whole string. -/
def sliceLast (n : Nat) (s : PyStr) : PyStr :=
  if n = 0 then s else s.drop (s.length - n)

end PyString

open PyString

/-! ## Data model

`SearchResult` models the result dictionaries that `LocalSearch.search`,
`OnlineSearch._search_wikipedia` and `Ranker.rank_results` build and pass
around (keys `text`, `source`, `similarity_score`, `is_fallback`, and the
`metadata` sub-dictionary's `file_name`).  `Doc` models the stored document
dictionaries of the vector store (keys `text`, `file_name`, `chunk_index`). -/

structure Doc where
  text : PyStr
  file_name : PyStr
  chunk_index : Nat
deriving DecidableEq, Repr

structure SearchResult where
  text : PyStr
  source : PyStr
  similarity_score : ℚ
  is_fallback : Bool := false
  file_name : PyStr := []
deriving DecidableEq, Repr

/-! ## Ranker (`retrieval/ranker.py`) -/

namespace Ranker

/-- Model of `Ranker.rank_results`: start from an empty list, extend with the local
results when nonempty, then mark every online result `is_fallback = True`
and extend with them when nonempty. -/
def rank_results (local_results online_results : List SearchResult) :
    List SearchResult :=
  let ranked : List SearchResult := []
  let ranked := if local_results.isEmpty then ranked else ranked ++ local_results
  let marked := online_results.map (fun r => { r with is_fallback := true })
  if online_results.isEmpty then ranked else ranked ++ marked

/-- The context-building loop of `Ranker.get_best_context`: accumulate whole
texts while they fit into `max_length`; at the first text that does not fit,
keep its prefix only when strictly more than 100 characters of budget
remain, then stop.  (The loop's `local_count`/`online_count` variables only
feed the debug log and are not modelled here.) -/
def bestContextParts (max_length : Nat) :
    List SearchResult → Nat → List PyStr
  | [], _ => []
  | r :: rs, current_length =>
    let text := r.text
    if current_length + text.length ≤ max_length then
      text :: bestContextParts max_length rs (current_length + text.length)
    else
      let remaining := max_length - current_length
      if remaining > 100 then [text.take remaining] else []

/-- Model of `Ranker.get_best_context`: the loop above joined with `"\n\n---\n\n"`. -/
def get_best_context (max_length : Nat) (results : List SearchResult) : PyStr :=
  join "\n\n---\n\n".toList (bestContextParts max_length results 0)

end Ranker

/-! ## Vector store (`embeddings/vector_store.py`)

The FAISS `IndexFlatIP` wrapped in an `IndexIDMap` is modelled as the list
of stored vectors, id `i` being position `i` (exactly how `add_documents`
assigns ids); its inner-product search returns all ids sorted by descending
score, truncated to `k`.  `faiss.normalize_L2` involves a square root, so
the query normalization is an uninterpreted parameter `normalize`; every
theorem below holds for all of them. -/

/-- An embedding vector. -/
abbrev Vec := List ℚ

/-- Inner product of two vectors (FAISS `IndexFlatIP` distance). -/
def dotProduct (a b : Vec) : ℚ :=
  ((a.zip b).map (fun p => p.1 * p.2)).sum

/-- Insert an `(id, score)` pair into a list sorted by descending score. -/
def insertDesc (p : Nat × ℚ) : List (Nat × ℚ) → List (Nat × ℚ)
  | [] => [p]
  | q :: qs => if q.2 ≤ p.2 then p :: q :: qs else q :: insertDesc p qs

/-- Sort `(id, score)` pairs by descending score. -/
def sortDesc : List (Nat × ℚ) → List (Nat × ℚ)
  | [] => []
  | p :: ps => insertDesc p (sortDesc ps)

structure VectorStore where
  dimension : Nat
  /-- `self.index`: `None` until `create_index`/`add_documents` runs; when
  present, the stored (normalized) vectors, id = position. -/
  index : Option (List Vec)
  /-- `self.documents`. -/
  documents : List Doc
  /-- `self._is_trained`. -/
  is_trained : Bool
deriving Repr

namespace VectorStore

/-- Model of `VectorStore.__init__`: no index yet, no documents. -/
def init (dimension : Nat) : VectorStore :=
  { dimension := dimension, index := none, documents := [], is_trained := false }

/-- Model of `VectorStore.search`: empty guard, query normalization, inner-product
search over the stored vectors with `top_k` clamped to the document count,
then the `0 <= idx < len(self.documents)` filter while pairing each id with
its document. -/
def search (vs : VectorStore) (normalize : Vec → Vec) (query_embedding : Vec)
    (top_k : Nat) : List (Doc × ℚ) :=
  match vs.index with
  | none => []
  | some vecs =>
    if vs.documents.length = 0 then []
    else
      let q := normalize query_embedding
      let k := min top_k vs.documents.length
      let scored := vecs.enum.map (fun p => (p.1, dotProduct q p.2))
      let top := (sortDesc scored).take k
      top.filterMap (fun p => (vs.documents.get? p.1).map (fun d => (d, p.2)))

/-- Model of `VectorStore.get_stats` (the `num_documents` and `is_trained` fields;
the path string is configuration plumbing and not modelled). -/
def get_stats (vs : VectorStore) : Nat × Nat × Bool :=
  (vs.documents.length, vs.dimension, vs.is_trained)

end VectorStore

/-! ## Text chunker (`ingestion/chunker.py`) -/

namespace TextChunker

/-- A chunk dictionary as built by `TextChunker._create_chunk` (the optional
`metadata` dictionary merge is not modelled; all claims run the chunker with
`metadata=None`, where `chunk_data.update` is skipped). -/
structure Chunk where
  text : PyStr
  chunk_index : Nat
  char_count : Nat
deriving DecidableEq, Repr

/-- Model of `TextChunker._create_chunk`: the stored text is stripped, while
`char_count` is the length of the raw (unstripped) buffer. -/
def create_chunk (text : PyStr) (index : Nat) : Chunk :=
  { text := strip text, chunk_index := index, char_count := text.length }

/-- Leftmost match of the paragraph pattern `\n\s*\n`: returns
`(start, length)` of the matched separator.  At the first `'\n'` the greedy
`\s*` swallows the following whitespace run and backtracks to the last
`'\n'` inside it; if that run holds no further `'\n'`, no match starts
here and the scan moves right. -/
def paraFind : PyStr → Option (Nat × Nat)
  | [] => none
  | c :: cs =>
    if c = '\n' then
      match findLastSub ['\n'] (cs.takeWhile isSpace) with
      | some j => some (0, j + 2)
      | none => (paraFind cs).map (fun p => (p.1 + 1, p.2))
    else (paraFind cs).map (fun p => (p.1 + 1, p.2))

/-- Fuelled worker for `re.split` on the paragraph pattern. -/
def paraSplitGo : Nat → PyStr → List PyStr
  | 0, s => [s]
  | fuel + 1, s =>
    match paraFind s with
    | none => [s]
    | some (i, len) => s.take i :: paraSplitGo fuel (s.drop (i + len))

/-- Model of `self.paragraph_pattern.split(text)` for the pattern `\n\s*\n`. -/
def paraSplit (s : PyStr) : List PyStr :=
  paraSplitGo (s.length + 1) s

/-- Leftmost match of the sentence pattern `(?<=[.!?])\s+` in `prev :: rest`:
a maximal whitespace run whose preceding character is `.`, `!` or `?`.
Returns `(start, length)` with `start` relative to `rest`. -/
def sentFindAux : Char → PyStr → Option (Nat × Nat)
  | _, [] => none
  | prev, c :: cs =>
    if isSpace c ∧ (prev = '.' ∨ prev = '!' ∨ prev = '?') then
      some (0, 1 + (cs.takeWhile isSpace).length)
    else (sentFindAux c cs).map (fun p => (p.1 + 1, p.2))

/-- Leftmost match of the sentence pattern in `s` (a match can never start
at index 0: the lookbehind needs a preceding character). -/
def sentFind : PyStr → Option (Nat × Nat)
  | [] => none
  | c :: cs => (sentFindAux c cs).map (fun p => (p.1 + 1, p.2))

/-- Fuelled worker for `re.split` on the sentence pattern. -/
def sentSplitGo : Nat → PyStr → List PyStr
  | 0, s => [s]
  | fuel + 1, s =>
    match sentFind s with
    | none => [s]
    | some (i, len) => s.take i :: sentSplitGo fuel (s.drop (i + len))

/-- Model of `TextChunker._split_sentences`: regex split, then
`[s.strip() for s in sentences if s.strip()]`. -/
def split_sentences (text : PyStr) : List PyStr :=
  ((sentSplitGo (text.length + 1) text).map strip).filter (fun s => ¬ s.isEmpty)

/-- Fuelled worker for `_force_split`'s `range(0, len(text), step)` loop. -/
def forceSplitGo (chunk_size step : Nat) (text : PyStr) : Nat → Nat → List PyStr
  | 0, _ => []
  | fuel + 1, i =>
    if i < text.length then
      (text.drop i).take chunk_size :: forceSplitGo chunk_size step text fuel (i + step)
    else []

/-- Model of `TextChunker._force_split`: slice every `chunk_size - overlap`
characters.  (With `overlap ≥ chunk_size` the Python `range` step would be
`≤ 0` and raise `ValueError`; that configuration is modelled as no chunks
and is outside every claim.) -/
def force_split (chunk_size overlap : Nat) (text : PyStr) : List PyStr :=
  if chunk_size - overlap = 0 then []
  else forceSplitGo chunk_size (chunk_size - overlap) text (text.length + 1) 0

/-- Model of `TextChunker._get_overlap`: the last `overlap` characters of the flushed
buffer (`text[-overlap:]`, hence the whole buffer when `overlap = 0`). -/
def get_overlap (overlap : Nat) (text : PyStr) : PyStr :=
  if text.length ≤ overlap then text else sliceLast overlap text

/-- The chunk-accumulation state of `chunk_text`: emitted chunks, the
running buffer `current_chunk`, and `chunk_index`. -/
structure ChunkState where
  chunks : List Chunk
  current : PyStr
  idx : Nat
deriving Repr

/-- One sentence step of `chunk_text`'s inner loop. -/
def addSentence (chunk_size overlap : Nat) (st : ChunkState) (sentence : PyStr) :
    ChunkState :=
  if 2 * sentence.length > 3 * chunk_size then
    (force_split chunk_size overlap sentence).foldl
      (fun st f =>
        { st with chunks := st.chunks ++ [create_chunk f st.idx], idx := st.idx + 1 })
      st
  else if st.current.length + sentence.length > chunk_size then
    if ¬ st.current.isEmpty then
      { chunks := st.chunks ++ [create_chunk st.current st.idx],
        current := get_overlap overlap st.current ++ sentence,
        idx := st.idx + 1 }
    else { st with current := sentence }
  else
    { st with
      current := if ¬ st.current.isEmpty then st.current ++ [' '] ++ sentence
                 else sentence }

/-- One paragraph step of `chunk_text`'s outer loop. -/
def addParagraph (chunk_size overlap : Nat) (st : ChunkState) (paragraph : PyStr) :
    ChunkState :=
  if paragraph.length > chunk_size then
    (split_sentences paragraph).foldl (addSentence chunk_size overlap) st
  else if st.current.length + paragraph.length > chunk_size then
    if ¬ st.current.isEmpty then
      { chunks := st.chunks ++ [create_chunk st.current st.idx],
        current := get_overlap overlap st.current ++ paragraph,
        idx := st.idx + 1 }
    else { st with current := paragraph }
  else
    { st with
      current := if ¬ st.current.isEmpty then st.current ++ '\n' :: '\n' :: paragraph
                 else paragraph }

/-- Model of `TextChunker.chunk_text` (with `metadata=None`): blank guard, paragraph
split, the accumulation loops, and the final flush of a nonempty buffer. -/
def chunk_text (chunk_size overlap : Nat) (text : PyStr) : List Chunk :=
  if isBlank text then []
  else
    let paragraphs := ((paraSplit text).map strip).filter (fun p => ¬ p.isEmpty)
    let st := paragraphs.foldl (addParagraph chunk_size overlap)
      { chunks := [], current := [], idx := 0 }
    if ¬ st.current.isEmpty then st.chunks ++ [create_chunk st.current st.idx]
    else st.chunks

end TextChunker

/-! ## Local search (`retrieval/local_search.py`)

`LocalSearch.search` composes two fallible collaborators: the sentence
embedder (`self.embedder.encode_single`) and the vector store
(`self.vector_store.search`).  Both are oracle parameters returning
`Except`; the method's `try/except` maps any raised error to `[]`.  The
outcome records how often each collaborator was invoked, so that the
empty-query short-circuit is a provable statement. -/

structure LocalOutcome where
  results : List SearchResult
  embedder_calls : Nat
  store_calls : Nat
deriving DecidableEq, Repr

namespace LocalSearch

/-- The result dictionary built for one surviving `(doc, score)` pair. -/
def formatResult (p : Doc × ℚ) : SearchResult :=
  { text := p.1.text
    source := "local".toList
    similarity_score := p.2
    is_fallback := false
    file_name := p.1.file_name }

/-- Model of `LocalSearch.search`: empty-query guard, encode, vector-store search,
then keep exactly the results with `score >= similarity_threshold`,
formatted with `source='local'`.  A raised exception is caught and yields
`[]`. -/
def search (similarity_threshold : ℚ)
    (encode_single : PyStr → Except PyErr Vec)
    (store_search : Vec → Nat → Except PyErr (List (Doc × ℚ)))
    (query : PyStr) (top_k : Nat) : LocalOutcome :=
  if isBlank query then { results := [], embedder_calls := 0, store_calls := 0 }
  else
    match encode_single query with
    | .error _ => { results := [], embedder_calls := 1, store_calls := 0 }
    | .ok query_embedding =>
      match store_search query_embedding top_k with
      | .error _ => { results := [], embedder_calls := 1, store_calls := 1 }
      | .ok results =>
        { results := (results.filter
            (fun p => similarity_threshold ≤ p.2)).map formatResult
          embedder_calls := 1
          store_calls := 1 }

/-- The context-building loop of `LocalSearch.get_context`: accumulate whole
result texts while they fit into `max_length`; at the first text that does
not fit, keep its prefix only when strictly more than 100 characters of
budget remain, then stop. -/
def contextParts (max_length : Nat) : List SearchResult → Nat → List PyStr
  | [], _ => []
  | r :: rs, current_length =>
    let text := r.text
    if current_length + text.length ≤ max_length then
      text :: contextParts max_length rs (current_length + text.length)
    else
      let remaining := max_length - current_length
      if remaining > 100 then [text.take remaining] else []

/-- Model of `LocalSearch.get_context` applied to an already-retrieved result list:
the loop above joined with `"\n\n"`. -/
def get_context (max_length : Nat) (results : List SearchResult) : PyStr :=
  join "\n\n".toList (contextParts max_length results 0)

end LocalSearch

/-! ## Online search (`retrieval/online_search.py`)

The Wikipedia client (`OnlineSearch._search_wikipedia`) is an oracle
parameter `fetch`; it traps its own exceptions internally and therefore
returns a plain list.  `search` returns the result list, the updated cache
state, and the number of `_search_wikipedia` invocations this call made
(the external-fetch count).  Disk persistence of the cache
(`_load_cache`/`_save_cache`) is I/O plumbing whose failures are swallowed
by the source; it is not modelled. -/

structure OnlineState where
  cache_enabled : Bool
  cache : List (PyStr × List SearchResult)
deriving DecidableEq, Repr

namespace OnlineSearch

/-- Python `query in self.cache` / `self.cache[query]` on the dict, modelled
as an association list. -/
def cacheLookup (cache : List (PyStr × List SearchResult)) (q : PyStr) :
    Option (List SearchResult) :=
  (cache.find? (fun p => decide (p.1 = q))).map Prod.snd

/-- Python `self.cache[query] = results`: overwrite an existing key,
otherwise append a fresh one. -/
def cacheInsert (cache : List (PyStr × List SearchResult)) (q : PyStr)
    (v : List SearchResult) : List (PyStr × List SearchResult) :=
  if cache.any (fun p => decide (p.1 = q)) then
    cache.map (fun p => if p.1 = q then (p.1, v) else p)
  else cache ++ [(q, v)]

/-- Model of `OnlineSearch.search`: empty-query guard, exact-string cache hit
short-circuit, otherwise one `_search_wikipedia` fetch whose nonempty
results are written back to the cache. -/
def search (st : OnlineState) (fetch : PyStr → List SearchResult)
    (query : PyStr) : List SearchResult × OnlineState × Nat :=
  if isBlank query then ([], st, 0)
  else
    match (if st.cache_enabled then cacheLookup st.cache query else none) with
    | some cached => (cached, st, 0)
    | none =>
      let results := fetch query
      let st' :=
        if st.cache_enabled ∧ ¬ results.isEmpty then
          { st with cache := cacheInsert st.cache query results }
        else st
      (results, st', 1)

/-- Model of `OnlineSearch.clear_cache`: drop the in-memory cache (and unlink the
persisted file, not modelled). -/
def clear_cache (st : OnlineState) : OnlineState :=
  { st with cache := [] }

end OnlineSearch

/-! ## Autocomplete (`suggestion/autocomplete.py`)

`Autocomplete.get_suggestions` composes `LocalSearch.search` (as the
autocomplete object sees it — an oracle returning `Except`), an optional
`OnlineSearch`, and an optional AI generator whose `is_available` and
`generate_multiple` calls can both raise.  The whole request body sits in a
`try/except` returning `[]`; `generate_multiple` additionally has its own
inner `try/except` that falls back to the template path. -/

structure AIGen where
  is_available : Except PyErr Bool
  generate_multiple : PyStr → List SearchResult → Nat → Except PyErr (List PyStr)

namespace Autocomplete

/-- The `for delimiter in ['. ', '! ', '? ', '\n']` loop of
`Autocomplete._extract_query`: at the first delimiter contained in the
query whose final split segment strips to something nonempty, keep that
stripped segment and `break`; otherwise keep the query. -/
def extractQueryLoop : List PyStr → PyStr → PyStr
  | [], query => query
  | d :: ds, query =>
    if containsSub d query then
      let parts := split d query
      if ¬ (strip (parts.getLastD [])).isEmpty then strip (parts.getLastD [])
      else extractQueryLoop ds query
    else extractQueryLoop ds query

/-- Model of `Autocomplete._extract_query`: strip the last `context_window`
characters, then the delimiter loop. -/
def extract_query (context_window : Nat) (context : PyStr) : PyStr :=
  extractQueryLoop [". ".toList, "! ".toList, "? ".toList, ['\n']]
    (strip (sliceLast context_window context))

/-- The sentence-assembly part of
`Autocomplete._generate_suggestion_from_result`: first `min 3` sentences,
stripped and joined with `'. '`, a final `'.'` ensured, capped to 400
characters at a sentence boundary. -/
def suggestionBody (text : PyStr) : PyStr :=
  let sentences := split ". ".toList text
  let num_sentences := min 3 sentences.length
  let suggestion_parts :=
    ((sentences.take num_sentences).map strip).filter (fun s => ¬ s.isEmpty)
  let suggestion := join ". ".toList suggestion_parts
  let suggestion :=
    if ¬ endsWith ".".toList suggestion then suggestion ++ ['.'] else suggestion
  if suggestion.length > 400 then
    rsplitOnceHead ". ".toList (suggestion.take 400) ++ ['.']
  else suggestion

/-- Model of `Autocomplete._generate_suggestion_from_result`: empty-text guard,
sentence assembly, and the similarity guard `suggestion.lower() not in
context.lower()`; on success an optional `[From: file]\n` tag is prepended.
(The method's own `try/except None` boundary has nothing to catch in this
pure model.) -/
def generate_suggestion_from_result (result : SearchResult) (context : PyStr) :
    Option PyStr :=
  if result.text.isEmpty then none
  else
    let sentences := split ". ".toList result.text
    if sentences.isEmpty then none
    else
      let suggestion := suggestionBody result.text
      if ¬ containsSub (lower suggestion) (lower context) then
        some (if ¬ result.file_name.isEmpty then
                "[From: ".toList ++ result.file_name ++ "]\n".toList ++ suggestion
              else suggestion)
      else none

/-- The template-fallback loop over `local_results[:num_suggestions * 2]`:
stop once `num_suggestions` are collected; append a generated suggestion
when it is truthy and not already present. -/
def templateFill (num : Nat) (context : PyStr) :
    List SearchResult → List PyStr → List PyStr
  | [], acc => acc
  | r :: rs, acc =>
    if num ≤ acc.length then acc
    else
      match generate_suggestion_from_result r context with
      | some s =>
        if ¬ s.isEmpty ∧ s ∉ acc then templateFill num context rs (acc ++ [s])
        else templateFill num context rs acc
      | none => templateFill num context rs acc

/-- The online-fallback loop over
`online_results[:num_suggestions - len(suggestions)]`. -/
def onlineFill (context : PyStr) :
    List SearchResult → List PyStr → List PyStr
  | [], acc => acc
  | r :: rs, acc =>
    match generate_suggestion_from_result r context with
    | some s =>
      if ¬ s.isEmpty ∧ s ∉ acc then onlineFill context rs (acc ++ [s])
      else onlineFill context rs acc
    | none => onlineFill context rs acc

/-- The AI branch of `get_suggestions`: `is_available` runs outside the
inner `try` (its error propagates to the request boundary), while a
`generate_multiple` error is caught locally and falls through with no
suggestions. -/
def aiSuggest (ai : Option AIGen) (context : PyStr)
    (local_results : List SearchResult) (num_suggestions : Nat) :
    Except PyErr (List PyStr) :=
  match ai with
  | none => .ok []
  | some g =>
    match g.is_available with
    | .error e => .error e
    | .ok false => .ok []
    | .ok true =>
      match g.generate_multiple context local_results num_suggestions with
      | .error _ => .ok []
      | .ok ai_suggestions => .ok ai_suggestions

/-- The body of `get_suggestions`'s outer `try` block: query extraction,
local retrieval, AI generation, template fallback, online fallback, final
truncation. -/
def getSuggestionsTry (context_window : Nat)
    (local_search : PyStr → Nat → Except PyErr (List SearchResult))
    (online_search : Option (PyStr → Except PyErr (List SearchResult)))
    (ai : Option AIGen)
    (context : PyStr) (num_suggestions : Nat) : Except PyErr (List PyStr) :=
  let query := extract_query context_window context
  match local_search query 5 with
  | .error e => .error e
  | .ok local_results =>
    match aiSuggest ai context local_results num_suggestions with
    | .error e => .error e
    | .ok suggestions =>
      let suggestions :=
        if suggestions.length < num_suggestions ∧ ¬ local_results.isEmpty then
          templateFill num_suggestions context
            (local_results.take (num_suggestions * 2)) suggestions
        else suggestions
      match online_search with
      | none => .ok (suggestions.take num_suggestions)
      | some os =>
        if suggestions.length < num_suggestions then
          match os query with
          | .error e => .error e
          | .ok online_results =>
            .ok ((onlineFill context
                (online_results.take (num_suggestions - suggestions.length))
                suggestions).take num_suggestions)
        else .ok (suggestions.take num_suggestions)

/-- Model of `Autocomplete.get_suggestions`: empty-context guard, then the `try`
body with any raised exception caught at the request boundary, producing
`[]`. -/
def get_suggestions (context_window : Nat)
    (local_search : PyStr → Nat → Except PyErr (List SearchResult))
    (online_search : Option (PyStr → Except PyErr (List SearchResult)))
    (ai : Option AIGen)
    (context : PyStr) (num_suggestions : Nat) : List PyStr :=
  if isBlank context then []
  else
    match getSuggestionsTry context_window local_search online_search ai
        context num_suggestions with
    | .ok suggestions => suggestions
    | .error _ => []

end Autocomplete

/-! ## Claim-level reference definitions

These definitions follow the wording of spec sentences (not the source);
they exist only to be compared with the source-derived definitions
above. -/

/-- The position (and pattern length) of the last occurrence, in `w`, of any
of the given delimiters: the occurrence with the greatest start index. -/
def lastDelimOcc (delims : List PyStr) (w : PyStr) : Option (Nat × Nat) :=
  delims.foldl
    (fun acc d =>
      match findLastSub d w with
      | none => acc
      | some i =>
        match acc with
        | none => some (i, d.length)
        | some (j, k) => if j < i then some (i, d.length) else some (j, k))
    none

/-- The claim's reading of query extraction: take the last `context_window`
characters; whenever any of `'. '`, `'! '`, `'? '`, `'\n'` occurs inside
that window, keep only the text after the last delimiter occurrence in the
window; otherwise use the full window. -/
def specExtractQueryClaim (context_window : Nat) (context : PyStr) : PyStr :=
  let window := sliceLast context_window context
  match lastDelimOcc [". ".toList, "! ".toList, "? ".toList, ['\n']] window with
  | none => window
  | some (i, len) => window.drop (i + len)

/-- The suffix of `w` after the last occurrence of `d` (the whole string
when `d` does not occur). -/
def afterLastOcc (d w : PyStr) : PyStr :=
  match findLastSub d w with
  | none => w
  | some i => w.drop (i + d.length)

/-- The amended reading of query extraction: strip the last
`context_window` characters; try the delimiters in the fixed order `'. '`,
`'! '`, `'? '`, `'\n'`; for the first one that occurs in the stripped
window and whose text after its last occurrence strips to something
nonempty, keep that stripped trailing text; otherwise use the stripped
window. -/
def specExtractQueryAmendedLoop : List PyStr → PyStr → PyStr
  | [], w => w
  | d :: ds, w =>
    if containsSub d w then
      if ¬ (strip (afterLastOcc d w)).isEmpty then strip (afterLastOcc d w)
      else specExtractQueryAmendedLoop ds w
    else specExtractQueryAmendedLoop ds w

def specExtractQueryAmended (context_window : Nat) (context : PyStr) : PyStr :=
  specExtractQueryAmendedLoop [". ".toList, "! ".toList, "? ".toList, ['\n']]
    (strip (sliceLast context_window context))

/-! ## Occurrence predicates -/

/-- Substring `d` occurs in `w` starting at index `i`. -/
def occursAt (d w : PyStr) (i : Nat) : Prop :=
  d <+: w.drop i

/-- Pattern `d` never overlaps itself: two distinct occurrences are at least
`d.length` apart.  All four query-extraction delimiters satisfy this. -/
def noSelfOverlap (d : PyStr) : Prop :=
  ∀ (w : PyStr) (i k : Nat), 0 < k → k < d.length →
    occursAt d w i → ¬ occursAt d w (i + k)

/-! ## Concrete fixtures

Concrete inputs used by witness and counterexample theorems. -/

/-- The chunker test input of the spec's overlap property:
`"This is a test sentence. "` repeated 10 times. -/
def chunkTestText : PyStr :=
  (List.replicate 10 "This is a test sentence. ".toList).flatten

/-- A stored document scoring `0.29` in the threshold-boundary scenario. -/
def docLow : Doc :=
  { text := "low scoring text".toList, file_name := "a.txt".toList, chunk_index := 0 }

/-- A stored document scoring `0.31` in the threshold-boundary scenario. -/
def docHigh : Doc :=
  { text := "high scoring text".toList, file_name := "b.txt".toList, chunk_index := 1 }

/-- An embedder oracle returning a fixed vector. -/
def encodeFix : PyStr → Except PyErr Vec := fun _ => .ok [(1 : ℚ)]

/-- A vector-store oracle returning scores `0.29` and `0.31`. -/
def storeFix : Vec → Nat → Except PyErr (List (Doc × ℚ)) :=
  fun _ _ => .ok [(docLow, 29/100), (docHigh, 31/100)]

/-- A local-search oracle that raises. -/
def localRaise : PyStr → Nat → Except PyErr (List SearchResult) :=
  fun _ _ => .error { msg := "embedding model crashed".toList }

/-- An online result fixture. -/
def wikiResult : SearchResult :=
  { text := "Machine learning is a field of study.".toList
    source := "wikipedia".toList
    similarity_score := 0 }

/-- A Wikipedia oracle returning one fixed result. -/
def fetchFix : PyStr → List SearchResult := fun _ => [wikiResult]

/-- A local result fixture (50 characters of text). -/
def resFifty : SearchResult :=
  { text := List.replicate 50 'a'
    source := "local".toList
    similarity_score := 9/10 }

/-- A second local result fixture (200 characters of text). -/
def resTwoHundred : SearchResult :=
  { text := List.replicate 200 'b'
    source := "local".toList
    similarity_score := 8/10 }

/-- A local result fixture with two short sentences and no file name. -/
def resCats : SearchResult :=
  { text := "Cats purr. Dogs bark.".toList
    source := "local".toList
    similarity_score := 1/2 }

namespace VectorStore

/-- Membership in an `insertDesc` output. -/
theorem mem_insertDesc (p b : Nat × ℚ) (m : List (Nat × ℚ))
    (hb : b ∈ insertDesc p m) : b = p ∨ b ∈ m := by
  induction m with
  | nil =>
    simp only [insertDesc, List.mem_singleton] at hb
    exact Or.inl hb
  | cons x xs ihm =>
    simp only [insertDesc] at hb
    by_cases hx : x.2 ≤ p.2
    · rw [if_pos hx] at hb
      rcases List.mem_cons.1 hb with rfl | hb'
      · exact Or.inl rfl
      · exact Or.inr hb'
    · rw [if_neg hx] at hb
      rcases List.mem_cons.1 hb with rfl | hb'
      · exact Or.inr (List.mem_cons_self _ _)
      · rcases ihm hb' with h | h
        · exact Or.inl h
        · exact Or.inr (List.mem_cons_of_mem _ h)

/-- Scores in `insertDesc` output stay pairwise descending. -/
theorem pairwise_insertDesc (p : Nat × ℚ) (l : List (Nat × ℚ))
    (h : l.Pairwise (fun a b => b.2 ≤ a.2)) :
    (insertDesc p l).Pairwise (fun a b => b.2 ≤ a.2) := by
  induction l with
  | nil => simp [insertDesc]
  | cons q qs ih =>
    rw [List.pairwise_cons] at h
    by_cases hq : q.2 ≤ p.2
    · simp only [insertDesc, if_pos hq]
      refine List.pairwise_cons.2 ⟨?_, List.pairwise_cons.2 h⟩
      intro b hb
      rcases List.mem_cons.1 hb with rfl | hb
      · exact hq
      · exact le_trans (h.1 b hb) hq
    · simp only [insertDesc, if_neg hq]
      refine List.pairwise_cons.2 ⟨?_, ih h.2⟩
      intro b hb
      rcases mem_insertDesc p b qs hb with rfl | hb'
      · exact le_of_not_le hq
      · exact h.1 b hb'

/-- Output of `sortDesc` is pairwise descending in score. -/
theorem pairwise_sortDesc (l : List (Nat × ℚ)) :
    (sortDesc l).Pairwise (fun a b => b.2 ≤ a.2) := by
  induction l with
  | nil => simp [sortDesc]
  | cons p ps ih => exact pairwise_insertDesc p _ ih

/-- Pairwise descending scores survive `filterMap` over a score-preserving
function. -/
theorem pairwise_filterMap_doc (docs : List Doc) (l : List (Nat × ℚ))
    (h : l.Pairwise (fun a b => b.2 ≤ a.2)) :
    (l.filterMap (fun p => (docs.get? p.1).map (fun d => (d, p.2)))).Pairwise
      (fun (a b : Doc × ℚ) => b.2 ≤ a.2) := by
  induction l with
  | nil => simp
  | cons p ps ih =>
    rw [List.pairwise_cons] at h
    rw [List.filterMap_cons]
    cases hd : (docs.get? p.1).map (fun d => (d, p.2)) with
    | none => exact ih h.2
    | some dp =>
      refine List.pairwise_cons.2 ⟨?_, ih h.2⟩
      intro b hb
      rcases List.mem_filterMap.1 hb with ⟨q, hq, hbq⟩
      rcases Option.map_eq_some'.1 hbq with ⟨d, _, rfl⟩
      rcases Option.map_eq_some'.1 hd with ⟨d', _, rfl⟩
      exact h.1 q hq

/-- The result list of `search`, projected to scores, is pairwise
descending. -/
theorem search_scores_sorted (vs : VectorStore) (normalize : Vec → Vec)
    (q : Vec) (top_k : Nat) :
    ((vs.search normalize q top_k).map Prod.snd).Pairwise (fun a b => b ≤ a) := by
  rw [List.pairwise_map]
  unfold search
  cases hidx : vs.index with
  | none => simp
  | some vecs =>
    by_cases hlen : vs.documents.length = 0
    · simp [hlen]
    · simp only [if_neg hlen]
      exact pairwise_filterMap_doc vs.documents _
        (List.Pairwise.sublist (List.take_sublist _ _) (pairwise_sortDesc _))

/-- Search returns at most `min top_k (number of documents)` results. -/
theorem search_length_le (vs : VectorStore) (normalize : Vec → Vec)
    (q : Vec) (top_k : Nat) :
    (vs.search normalize q top_k).length ≤ min top_k vs.documents.length := by
  unfold search
  cases hidx : vs.index with
  | none => simp
  | some vecs =>
    by_cases hlen : vs.documents.length = 0
    · simp [hlen]
    · simp only [if_neg hlen]
      calc (((sortDesc ((vecs.enum).map
              (fun p => (p.1, dotProduct (normalize q) p.2)))).take
              (min top_k vs.documents.length)).filterMap
              (fun p => (vs.documents.get? p.1).map (fun d => (d, p.2)))).length
          ≤ ((sortDesc ((vecs.enum).map
              (fun p => (p.1, dotProduct (normalize q) p.2)))).take
              (min top_k vs.documents.length)).length :=
            List.length_filterMap_le _ _
        _ ≤ min top_k vs.documents.length := by
            rw [List.length_take]
            exact min_le_left _ _

/-- Search on a not-yet-created or empty index returns the empty list. -/
theorem search_empty (vs : VectorStore) (normalize : Vec → Vec)
    (q : Vec) (top_k : Nat) (h : vs.index = none ∨ vs.documents = []) :
    vs.search normalize q top_k = [] := by
  unfold search
  rcases h with h | h
  · rw [h]
  · cases hidx : vs.index with
    | none => rfl
    | some vecs => simp [h]

end VectorStore

namespace Ranker

/-- Unfolding `rank_results`: the `if` guards of the source are no-ops, the
merge is local results followed by flagged online results. -/
theorem rank_results_eq (l o : List SearchResult) :
    rank_results l o = l ++ o.map (fun r => { r with is_fallback := true }) := by
  unfold rank_results
  cases l with
  | nil =>
    cases o with
    | nil => simp
    | cons a as => simp
  | cons a as =>
    cases o with
    | nil => simp
    | cons b bs => simp

end Ranker

/-- C1: `Ranker.rank_results` places all local results first in their given
order, then all online results in their given order with `is_fallback=true`;
hence every local entry's position (an index below `l.length`) strictly
precedes every online entry's position (an index at or above `l.length`),
regardless of the online entries' scores. -/
theorem ranker_merge_local_first (l o : List SearchResult) :
    (Ranker.rank_results l o).take l.length = l ∧
    (Ranker.rank_results l o).drop l.length
      = o.map (fun r => { r with is_fallback := true }) ∧
    (∀ r ∈ (Ranker.rank_results l o).drop l.length, r.is_fallback = true) := by
  rw [Ranker.rank_results_eq]
  refine ⟨List.take_left l _, List.drop_left l _, ?_⟩
  rw [List.drop_left]
  intro r hr
  rcases List.mem_map.1 hr with ⟨x, _, rfl⟩
  rfl

/-- Witness for C1 at one concrete local and one concrete online result. -/
theorem ranker_merge_local_first_witness :
    (Ranker.rank_results [resFifty] [wikiResult]).take 1 = [resFifty] ∧
    ∀ r ∈ (Ranker.rank_results [resFifty] [wikiResult]).drop 1,
      r.is_fallback = true := by
  have h := ranker_merge_local_first [resFifty] [wikiResult]
  exact ⟨h.1, h.2.2⟩

/-- C4: `VectorStore.search` returns at most `min top_k (number of stored
documents)` results, ordered by descending similarity score; on a
not-yet-created or empty index it returns `[]` (no error is possible: the
model is total); and `get_stats` on a fresh empty store reports zero
documents. -/
theorem vector_store_search_bounded_sorted_safe
    (vs : VectorStore) (normalize : Vec → Vec) (q : Vec) (top_k d : Nat) :
    (vs.search normalize q top_k).length ≤ min top_k vs.documents.length ∧
    ((vs.search normalize q top_k).map Prod.snd).Pairwise (fun a b => b ≤ a) ∧
    (vs.index = none ∨ vs.documents = [] → vs.search normalize q top_k = []) ∧
    ((VectorStore.init d).get_stats).1 = 0 :=
  ⟨VectorStore.search_length_le vs normalize q top_k,
   VectorStore.search_scores_sorted vs normalize q top_k,
   VectorStore.search_empty vs normalize q top_k,
   rfl⟩

/-- Witness for C4: a fresh empty store searched with `top_k = 5` returns
`[]`, and its stats report zero documents. -/
theorem vector_store_search_bounded_sorted_safe_witness :
    (VectorStore.init 384).search (fun v => v) [(1 : ℚ)] 5 = [] ∧
    ((VectorStore.init 384).get_stats).1 = 0 := by
  have h := vector_store_search_bounded_sorted_safe
    (VectorStore.init 384) (fun v => v) [(1 : ℚ)] 5 384
  exact ⟨h.2.2.1 (Or.inl rfl), h.2.2.2⟩

/-- C2: for every non-blank query and every result list delivered by the
vector store, `LocalSearch.search` keeps exactly the results whose
similarity score is `>= similarity_threshold` (in order), and every kept
result is tagged `source='local'`. -/
theorem local_search_threshold_filter
    (threshold : ℚ)
    (encode_single : PyStr → Except PyErr Vec)
    (store_search : Vec → Nat → Except PyErr (List (Doc × ℚ)))
    (query : PyStr) (top_k : Nat) (emb : Vec) (rs : List (Doc × ℚ))
    (hq : isBlank query = false)
    (he : encode_single query = .ok emb)
    (hs : store_search emb top_k = .ok rs) :
    (LocalSearch.search threshold encode_single store_search query top_k).results
      = (rs.filter (fun p => threshold ≤ p.2)).map LocalSearch.formatResult ∧
    (∀ p ∈ rs, threshold ≤ p.2 →
      LocalSearch.formatResult p ∈
        (LocalSearch.search threshold encode_single store_search query top_k).results) ∧
    (∀ r ∈ (LocalSearch.search threshold encode_single store_search query top_k).results,
      r.source = "local".toList) := by
  have hsearch :
      (LocalSearch.search threshold encode_single store_search query top_k).results
        = (rs.filter (fun p => threshold ≤ p.2)).map LocalSearch.formatResult := by
    unfold LocalSearch.search
    rw [hq]
    simp only [Bool.false_eq_true, if_false, he, hs]
  refine ⟨hsearch, ?_, ?_⟩
  · intro p hp hscore
    rw [hsearch]
    exact List.mem_map_of_mem _ (List.mem_filter.2 ⟨hp, by simpa using hscore⟩)
  · intro r hr
    rw [hsearch] at hr
    rcases List.mem_map.1 hr with ⟨p, _, rfl⟩
    rfl

/-- Witness for C2 at the spec's boundary scenario: threshold `0.3`, stored
scores `0.29` and `0.31` — the `0.29` result is dropped, the `0.31` result
is kept and tagged `source='local'`. -/
theorem local_search_threshold_filter_witness :
    (LocalSearch.search (3/10) encodeFix storeFix "hi".toList 5).results
      = [LocalSearch.formatResult (docHigh, 31/100)] := by
  have h := local_search_threshold_filter (3/10) encodeFix storeFix
    "hi".toList 5 [(1 : ℚ)] [(docLow, 29/100), (docHigh, 31/100)]
    (by decide) rfl rfl
  rw [h.1]
  have h1 : ¬ ((3 : ℚ)/10 ≤ 29/100) := by norm_num
  have h2 : (3 : ℚ)/10 ≤ 31/100 := by norm_num
  simp [List.filter_cons, h1, h2]

/-- C3: `Autocomplete.get_suggestions` never propagates an exception raised
during retrieval or generation: whenever the request body (the `try` block)
raises, the request boundary catches it and the call returns `[]`.  (The
model is total, so "never propagates" is by construction; this theorem pins
down the boundary behaviour on every raising run.) -/
theorem get_suggestions_catches_errors
    (context_window : Nat)
    (local_search : PyStr → Nat → Except PyErr (List SearchResult))
    (online_search : Option (PyStr → Except PyErr (List SearchResult)))
    (ai : Option AIGen) (context : PyStr) (num_suggestions : Nat) (e : PyErr)
    (herr : Autocomplete.getSuggestionsTry context_window local_search
      online_search ai context num_suggestions = .error e) :
    Autocomplete.get_suggestions context_window local_search online_search ai
      context num_suggestions = [] := by
  unfold Autocomplete.get_suggestions
  cases hb : isBlank context with
  | true => simp
  | false => simp [herr]

/-- Witness for C3: a local-search collaborator that raises makes the
request return `[]`. -/
theorem get_suggestions_catches_errors_witness :
    Autocomplete.get_suggestions 100 localRaise none none "hi".toList 3 = [] :=
  get_suggestions_catches_errors 100 localRaise none none "hi".toList 3
    { msg := "embedding model crashed".toList } rfl



namespace OnlineSearch

/-- Looking up the key just written by `cacheInsert` yields the written
value. -/
theorem cacheLookup_cacheInsert_self
    (cache : List (PyStr × List SearchResult)) (q : PyStr)
    (v : List SearchResult) :
    cacheLookup (cacheInsert cache q v) q = some v := by
  induction cache with
  | nil => simp [cacheInsert, cacheLookup]
  | cons p ps ih =>
    by_cases hp : p.1 = q
    · simp [cacheInsert, cacheLookup, List.any_cons, hp]
    · have hpd : (decide (p.1 = q)) = false := decide_eq_false hp
      have hfind : ¬ ((fun (p : PyStr × List SearchResult) =>
          decide (p.1 = q)) p = true) := by
        simpa using hp
      rw [cacheInsert]
      cases han : ps.any (fun p => decide (p.1 = q)) with
      | true =>
        have hany : ((p :: ps).any (fun p => decide (p.1 = q))) = true := by
          rw [List.any_cons, hpd, Bool.false_or]
          exact han
        rw [cacheInsert, if_pos han] at ih
        rw [if_pos hany, List.map_cons, if_neg hp]
        unfold cacheLookup
        have hskip : List.find? (fun r : PyStr × List SearchResult => decide (r.1 = q))
            (p :: List.map (fun r => if r.1 = q then (r.1, v) else r) ps)
          = List.find? (fun r : PyStr × List SearchResult => decide (r.1 = q))
            (List.map (fun r => if r.1 = q then (r.1, v) else r) ps) :=
          List.find?_cons_of_neg _ (by simpa using hp)
        rw [hskip]
        exact ih
      | false =>
        have hany : ((p :: ps).any (fun p => decide (p.1 = q))) = false := by
          rw [List.any_cons, hpd, Bool.false_or]
          exact han
        rw [cacheInsert, if_neg (by rw [han]; exact Bool.false_ne_true)] at ih
        rw [if_neg (by rw [hany]; exact Bool.false_ne_true), List.cons_append]
        unfold cacheLookup
        have hskip : List.find? (fun r : PyStr × List SearchResult => decide (r.1 = q))
            (p :: (ps ++ [(q, v)]))
          = List.find? (fun r : PyStr × List SearchResult => decide (r.1 = q))
            (ps ++ [(q, v)]) :=
          List.find?_cons_of_neg _ (by simpa using hp)
        rw [hskip]
        exact ih

/-- Unfolding `search` on a cache hit: the cached list is returned, the
state is unchanged, no fetch happens. -/
theorem search_of_hit (st : OnlineState) (fetch : PyStr → List SearchResult)
    (q : PyStr) (cached : List SearchResult)
    (hb : isBlank q = false) (hen : st.cache_enabled = true)
    (hl : cacheLookup st.cache q = some cached) :
    search st fetch q = (cached, st, 0) := by
  unfold search
  rw [hb, hen]
  simp [hl]

/-- Unfolding `search` on a cache miss with nonempty fetched results: one
fetch happens and the results are written back. -/
theorem search_of_miss (st : OnlineState) (fetch : PyStr → List SearchResult)
    (q : PyStr)
    (hb : isBlank q = false) (hen : st.cache_enabled = true)
    (hl : cacheLookup st.cache q = none)
    (hres : (fetch q).isEmpty = false) :
    search st fetch q
      = (fetch q, { st with cache := cacheInsert st.cache q (fetch q) }, 1) := by
  unfold search
  rw [hb, hen]
  simp [hl, hres]

/-- On any non-blank query that misses the cache (in particular whenever
caching is disabled or the cache is empty), `search` performs exactly one
fetch. -/
theorem search_fetches_once_of_miss (st : OnlineState)
    (fetch : PyStr → List SearchResult) (q : PyStr)
    (hb : isBlank q = false)
    (hl : (if st.cache_enabled then cacheLookup st.cache q else none) = none) :
    (search st fetch q).2.2 = 1 := by
  unfold search
  rw [hb]
  simp only [Bool.false_eq_true, if_false, hl]

end OnlineSearch

/-- C5: once `OnlineSearch.search` has returned a nonempty result list for a
query (with caching enabled), repeating the exact same query returns that
same list from the cache, performing zero external fetches, and leaves the
state unchanged; if the first call was a cache miss it performed exactly one
fetch, so the two identical queries trigger exactly one fetch in total; and
after `clear_cache` the same query triggers a new fetch. -/
theorem online_search_caches_fetches
    (st0 : OnlineState) (fetch : PyStr → List SearchResult) (q : PyStr)
    (hen : st0.cache_enabled = true)
    (hne : (OnlineSearch.search st0 fetch q).1 ≠ []) :
    (OnlineSearch.search (OnlineSearch.search st0 fetch q).2.1 fetch q
      = ((OnlineSearch.search st0 fetch q).1,
         (OnlineSearch.search st0 fetch q).2.1, 0)) ∧
    (OnlineSearch.cacheLookup st0.cache q = none →
      (OnlineSearch.search st0 fetch q).2.2 = 1) ∧
    ((OnlineSearch.search
        (OnlineSearch.clear_cache (OnlineSearch.search st0 fetch q).2.1)
        fetch q).2.2 = 1) := by
  have hblank : isBlank q = false := by
    cases hb : isBlank q with
    | false => rfl
    | true =>
      exfalso
      apply hne
      unfold OnlineSearch.search
      rw [hb]
      simp
  have hclear : ∀ st : OnlineState,
      (OnlineSearch.search (OnlineSearch.clear_cache st) fetch q).2.2 = 1 := by
    intro st
    apply OnlineSearch.search_fetches_once_of_miss _ fetch q hblank
    cases h : (OnlineSearch.clear_cache st).cache_enabled <;> simp [h]
    rfl
  cases hl : OnlineSearch.cacheLookup st0.cache q with
  | some cached =>
    have h1 : OnlineSearch.search st0 fetch q = (cached, st0, 0) :=
      OnlineSearch.search_of_hit st0 fetch q cached hblank hen hl
    refine ⟨?_, ?_, ?_⟩
    · rw [h1]
      exact OnlineSearch.search_of_hit st0 fetch q cached hblank hen hl
    · intro hnone
      simp at hnone
    · rw [h1]
      exact hclear st0
  | none =>
    have hres : (fetch q).isEmpty = false := by
      cases hfe : (fetch q).isEmpty with
      | false => rfl
      | true =>
        exfalso
        apply hne
        rw [OnlineSearch.search]
        rw [hblank, hen]
        simp only [Bool.false_eq_true, if_false, if_true, hl]
        exact List.isEmpty_iff.1 hfe
    have h1 := OnlineSearch.search_of_miss st0 fetch q hblank hen hl hres
    refine ⟨?_, fun _ => by rw [h1], by rw [h1]; exact hclear _⟩
    rw [h1]
    exact OnlineSearch.search_of_hit _ fetch q (fetch q) hblank hen
      (OnlineSearch.cacheLookup_cacheInsert_self st0.cache q (fetch q))

/-- Witness for C5: starting from an enabled empty cache, the second
identical query returns the first call's results without fetching, and the
first call fetched exactly once. -/
theorem online_search_caches_fetches_witness :
    (OnlineSearch.search
        (OnlineSearch.search ⟨true, []⟩ fetchFix "ml".toList).2.1
        fetchFix "ml".toList
      = ((OnlineSearch.search ⟨true, []⟩ fetchFix "ml".toList).1,
         (OnlineSearch.search ⟨true, []⟩ fetchFix "ml".toList).2.1, 0)) ∧
    (OnlineSearch.search ⟨true, []⟩ fetchFix "ml".toList).2.2 = 1 := by
  have hne : (OnlineSearch.search ⟨true, []⟩ fetchFix "ml".toList).1 ≠ [] := by
    rw [show (OnlineSearch.search ⟨true, []⟩ fetchFix "ml".toList).1
        = [wikiResult] from rfl]
    exact List.cons_ne_nil _ _
  have h := online_search_caches_fetches ⟨true, []⟩ fetchFix "ml".toList rfl hne
  exact ⟨h.1, h.2.1 rfl⟩

/-- C9: on an empty or whitespace-only query, `LocalSearch.search` returns
an empty outcome with zero embedder and zero vector-store invocations,
`OnlineSearch.search` returns `[]` with an unchanged state and zero
fetches, and `Autocomplete.get_suggestions` returns `[]` for every choice
of collaborators. -/
theorem blank_query_short_circuits (q : PyStr) (hq : isBlank q = true)
    (threshold : ℚ)
    (encode_single : PyStr → Except PyErr Vec)
    (store_search : Vec → Nat → Except PyErr (List (Doc × ℚ)))
    (top_k : Nat) (st : OnlineState) (fetch : PyStr → List SearchResult)
    (context_window : Nat)
    (local_search : PyStr → Nat → Except PyErr (List SearchResult))
    (online_search : Option (PyStr → Except PyErr (List SearchResult)))
    (ai : Option AIGen) (num_suggestions : Nat) :
    LocalSearch.search threshold encode_single store_search q top_k
      = { results := [], embedder_calls := 0, store_calls := 0 } ∧
    OnlineSearch.search st fetch q = ([], st, 0) ∧
    Autocomplete.get_suggestions context_window local_search online_search ai
      q num_suggestions = [] := by
  refine ⟨?_, ?_, ?_⟩
  · unfold LocalSearch.search
    rw [hq]
    rfl
  · unfold OnlineSearch.search
    rw [hq]
    rfl
  · unfold Autocomplete.get_suggestions
    rw [hq]
    rfl

/-- Witness for C9: a whitespace-only query short-circuits all three entry
points (concrete collaborators supplied). -/
theorem blank_query_short_circuits_witness :
    LocalSearch.search (3/10) encodeFix storeFix "  ".toList 5
      = { results := [], embedder_calls := 0, store_calls := 0 } ∧
    OnlineSearch.search ⟨true, []⟩ fetchFix "  ".toList = ([], ⟨true, []⟩, 0) ∧
    Autocomplete.get_suggestions 100 localRaise none none "  ".toList 3 = [] :=
  blank_query_short_circuits "  ".toList rfl (3/10) encodeFix storeFix 5
    ⟨true, []⟩ fetchFix 100 localRaise none none 3

/-- The context loop of `Ranker.get_best_context` builds the same parts as
the context loop of `LocalSearch.get_context` (the source duplicates the
algorithm). -/
theorem bestContextParts_eq_contextParts (max_length : Nat)
    (rs : List SearchResult) (cur : Nat) :
    Ranker.bestContextParts max_length rs cur
      = LocalSearch.contextParts max_length rs cur := by
  induction rs generalizing cur with
  | nil => rfl
  | cons r rs ih =>
    unfold Ranker.bestContextParts LocalSearch.contextParts
    by_cases h : cur + r.text.length ≤ max_length
    · rw [if_pos h, if_pos h, ih]
    · rw [if_neg h, if_neg h]

/-- The kept text of the context loop never exceeds the remaining budget. -/
theorem contextParts_sum_le (max_length : Nat) (rs : List SearchResult) :
    ∀ cur, cur ≤ max_length →
      ((LocalSearch.contextParts max_length rs cur).map List.length).sum
        ≤ max_length - cur := by
  induction rs with
  | nil =>
    intro cur _
    simp [LocalSearch.contextParts]
  | cons r rs ih =>
    intro cur hcur
    unfold LocalSearch.contextParts
    by_cases h : cur + r.text.length ≤ max_length
    · rw [if_pos h]
      have := ih (cur + r.text.length) h
      simp only [List.map_cons, List.sum_cons]
      omega
    · rw [if_neg h]
      by_cases h100 : max_length - cur > 100
      · rw [if_pos h100]
        simp only [List.map_cons, List.map_nil, List.sum_cons, List.sum_nil]
        have : (r.text.take (max_length - cur)).length ≤ max_length - cur := by
          rw [List.length_take]
          exact min_le_left _ _
        omega
      · rw [if_neg h100]
        simp

/-- At the first result whose text no longer fits, the loop emits a
truncated fragment exactly when strictly more than 100 characters of budget
remain, and then stops. -/
theorem contextParts_overflow_step (max_length : Nat) (r : SearchResult)
    (rs : List SearchResult) (cur : Nat)
    (h : ¬ cur + r.text.length ≤ max_length) :
    LocalSearch.contextParts max_length (r :: rs) cur
      = if 100 < max_length - cur then [r.text.take (max_length - cur)]
        else [] := by
  unfold LocalSearch.contextParts
  rw [if_neg h]

/-- C8 (amended): in both context builders the truncated tail fragment of
the first overflowing text is included iff *strictly more than* 100
characters of budget remain (exactly 100 remaining characters are dropped),
and the total length of kept text never exceeds `max_length`. -/
theorem context_tail_fragment_strict_boundary (max_length : Nat)
    (results rs : List SearchResult) (r : SearchResult) (cur : Nat)
    (hover : ¬ cur + r.text.length ≤ max_length) :
    ((LocalSearch.contextParts max_length results 0).map List.length).sum
        ≤ max_length ∧
    ((Ranker.bestContextParts max_length results 0).map List.length).sum
        ≤ max_length ∧
    (LocalSearch.contextParts max_length (r :: rs) cur
      = if 100 < max_length - cur then [r.text.take (max_length - cur)]
        else []) ∧
    (Ranker.bestContextParts max_length (r :: rs) cur
      = if 100 < max_length - cur then [r.text.take (max_length - cur)]
        else []) := by
  refine ⟨?_, ?_, contextParts_overflow_step max_length r rs cur hover, ?_⟩
  · simpa using contextParts_sum_le max_length results 0 (Nat.zero_le _)
  · rw [bestContextParts_eq_contextParts]
    simpa using contextParts_sum_le max_length results 0 (Nat.zero_le _)
  · rw [bestContextParts_eq_contextParts]
    exact contextParts_overflow_step max_length r rs cur hover

set_option maxRecDepth 4000 in
/-- Witness for C8 (amended) at `max_length = 150`: a 200-character text
reached with 50 characters already used overflows with exactly 100
characters of budget left, and no fragment is kept. -/
theorem context_tail_fragment_strict_boundary_witness :
    LocalSearch.contextParts 150 [resTwoHundred] 50 = [] ∧
    ((LocalSearch.contextParts 150 [resFifty, resTwoHundred] 0).map
      List.length).sum ≤ 150 := by
  have h := context_tail_fragment_strict_boundary 150
    [resFifty, resTwoHundred] [] resTwoHundred 50
    (by simp [resTwoHundred])
  refine ⟨?_, h.1⟩
  rw [h.2.2.1]
  simp [resTwoHundred]

set_option maxRecDepth 8000 in
/-- Counterexample to C8 as stated: with `max_length = 150`, after a
50-character text exactly 100 characters of budget remain (`>= 100` holds),
yet both context builders drop the 200-character follow-up text entirely —
no truncated fragment is included. -/
theorem context_tail_fragment_at_100_dropped :
    150 - resFifty.text.length = 100 ∧
    LocalSearch.contextParts 150 [resFifty, resTwoHundred] 0
      = [List.replicate 50 'a'] ∧
    Ranker.bestContextParts 150 [resFifty, resTwoHundred] 0
      = [List.replicate 50 'a'] := by
  decide


namespace Autocomplete

/-- Unfolding equation for `generate_suggestion_from_result` with its `let`
bindings resolved. -/
theorem generate_suggestion_from_result_eq (result : SearchResult)
    (context : PyStr) :
    generate_suggestion_from_result result context
      = if result.text.isEmpty then none
        else if (split ". ".toList result.text).isEmpty then none
        else if ¬ containsSub (lower (suggestionBody result.text))
            (lower context) then
          some (if ¬ result.file_name.isEmpty then
              "[From: ".toList ++ result.file_name ++ "]\n".toList
                ++ suggestionBody result.text
            else suggestionBody result.text)
        else none := rfl

end Autocomplete

/-- C10: whenever the template path
(`Autocomplete._generate_suggestion_from_result`) produces a suggestion,
its body (the sentence-assembled part, without the optional `[From: ...]`
tag) lowercased is not a substring of the lowercased context, and the
returned string is exactly that body, optionally tagged. -/
theorem template_suggestion_not_echo (result : SearchResult)
    (context : PyStr) (s : PyStr)
    (h : Autocomplete.generate_suggestion_from_result result context = some s) :
    containsSub (lower (Autocomplete.suggestionBody result.text))
      (lower context) = false ∧
    (s = Autocomplete.suggestionBody result.text ∨
     s = "[From: ".toList ++ result.file_name ++ "]\n".toList
         ++ Autocomplete.suggestionBody result.text) := by
  rw [Autocomplete.generate_suggestion_from_result_eq] at h
  by_cases h1 : result.text.isEmpty = true
  · rw [if_pos h1] at h
    exact absurd h (by simp)
  · rw [if_neg h1] at h
    by_cases h2 : (split ". ".toList result.text).isEmpty = true
    · rw [if_pos h2] at h
      exact absurd h (by simp)
    · rw [if_neg h2] at h
      by_cases h3 : containsSub (lower (Autocomplete.suggestionBody result.text))
          (lower context) = true
      · rw [if_neg (not_not_intro h3)] at h
        exact absurd h (by simp)
      · rw [if_pos h3] at h
        refine ⟨Bool.eq_false_iff.2 h3, ?_⟩
        have h4 := Option.some.inj h
        by_cases hf : result.file_name.isEmpty = true
        · left
          rw [if_neg (not_not_intro hf)] at h4
          exact h4.symm
        · right
          rw [if_pos hf] at h4
          exact h4.symm

/-- Witness for C10: a two-sentence passage suggested against an unrelated
context. -/
theorem template_suggestion_not_echo_witness :
    containsSub (lower (Autocomplete.suggestionBody resCats.text))
      (lower "zzz".toList) = false ∧
    ((Autocomplete.suggestionBody resCats.text
        = Autocomplete.suggestionBody resCats.text) ∨
     (Autocomplete.suggestionBody resCats.text
        = "[From: ".toList ++ resCats.file_name ++ "]\n".toList
          ++ Autocomplete.suggestionBody resCats.text)) := by
  have h := template_suggestion_not_echo resCats "zzz".toList
    (Autocomplete.suggestionBody resCats.text) rfl
  exact ⟨h.1, Or.inl rfl⟩

set_option maxRecDepth 100000 in
/-- C7 (failing evaluation): on the spec's own overlap scenario
(`chunk_size=50`, `overlap=10`, `"This is a test sentence. "` × 10) the
chunker emits more than zero chunks, and there is a chunk whose
`char_count` differs from the length of its `text`: `_create_chunk` stores
the stripped buffer as `text` but the unstripped buffer's length as
`char_count`, and every overlap-seeded buffer starts with a space. -/
theorem chunker_char_count_mismatch :
    0 < (TextChunker.chunk_text 50 10 chunkTestText).length ∧
    ∃ c ∈ TextChunker.chunk_text 50 10 chunkTestText,
      c.char_count ≠ c.text.length := by
  decide

set_option maxRecDepth 8000 in
/-- Counterexample to C6 as stated: in the window `"a. b! c"` the last
delimiter occurrence is `'! '`, so the claim demands `"c"`; the code checks
`'. '` first and keeps `"b! c"`. -/
theorem extract_query_not_after_last_delimiter :
    Autocomplete.extract_query 100 "a. b! c".toList = "b! c".toList ∧
    specExtractQueryClaim 100 "a. b! c".toList = "c".toList ∧
    Autocomplete.extract_query 100 "a. b! c".toList
      ≠ specExtractQueryClaim 100 "a. b! c".toList := by
  decide

namespace PyString

/-- A nonempty pattern does not occur in the empty string. -/
theorem not_occursAt_nil (d : PyStr) (i : Nat) (hne : d ≠ []) :
    ¬ occursAt d [] i := by
  intro h
  exact hne (List.prefix_nil.1 (by simpa [occursAt] using h))

/-- Occurrence transfers through `drop`. -/
theorem occursAt_drop (d w : PyStr) (n j : Nat) :
    occursAt d (w.drop n) j ↔ occursAt d w (n + j) := by
  unfold occursAt
  rw [List.drop_drop]

/-- Characterization of a failing `findSub`: no occurrence anywhere. -/
theorem findSub_eq_none_iff (d : PyStr) (hne : d ≠ []) (hay : PyStr) :
    findSub d hay = none ↔ ∀ i, ¬ occursAt d hay i := by
  induction hay with
  | nil =>
    simp only [findSub, if_neg hne]
    exact ⟨fun _ i => not_occursAt_nil d i hne, fun _ => trivial⟩
  | cons c cs ih =>
    simp only [findSub]
    by_cases hp : d.isPrefixOf (c :: cs)
    · rw [if_pos hp]
      constructor
      · intro h
        cases h
      · intro h
        exact absurd (by simpa [occursAt] using hp) (h 0)
    · rw [if_neg hp]
      simp only [Option.map_eq_none']
      rw [ih]
      constructor
      · intro h i
        cases i with
        | zero =>
          simpa [occursAt] using fun hpre => hp (List.isPrefixOf_iff_prefix.2 hpre)
        | succ j => exact h j
      · intro h j
        exact h (j + 1)

/-- A successful `findSub` is an occurrence, and the leftmost one. -/
theorem findSub_eq_some (d hay : PyStr) (i : Nat)
    (h : findSub d hay = some i) :
    occursAt d hay i ∧ ∀ j, j < i → ¬ occursAt d hay j := by
  induction hay generalizing i with
  | nil =>
    simp only [findSub] at h
    by_cases hd : d = []
    · rw [if_pos hd] at h
      cases h
      subst hd
      exact ⟨List.nil_prefix, fun j hj => absurd hj (Nat.not_lt_zero j)⟩
    · rw [if_neg hd] at h
      cases h
  | cons c cs ih =>
    simp only [findSub] at h
    by_cases hp : d.isPrefixOf (c :: cs)
    · rw [if_pos hp] at h
      cases h
      exact ⟨by simpa [occursAt] using hp,
        fun j hj => absurd hj (Nat.not_lt_zero j)⟩
    · rw [if_neg hp] at h
      rcases Option.map_eq_some'.1 h with ⟨i', hi', rfl⟩
      obtain ⟨hocc, hmin⟩ := ih i' hi'
      refine ⟨hocc, ?_⟩
      intro j hj
      cases j with
      | zero =>
        simpa [occursAt] using fun hpre => hp (List.isPrefixOf_iff_prefix.2 hpre)
      | succ j' =>
        exact hmin j' (by omega)

/-- Characterization of a failing `findLastSub`: no occurrence anywhere. -/
theorem findLastSub_eq_none_iff (d : PyStr) (hne : d ≠ []) (hay : PyStr) :
    findLastSub d hay = none ↔ ∀ i, ¬ occursAt d hay i := by
  induction hay with
  | nil =>
    simp only [findLastSub, if_neg hne]
    exact ⟨fun _ i => not_occursAt_nil d i hne, fun _ => trivial⟩
  | cons c cs ih =>
    simp only [findLastSub]
    cases hfl : findLastSub d cs with
    | some k =>
      simp only [Option.map_some']
      constructor
      · intro h
        cases h
      · intro h
        exact absurd (ih.2 (fun i => h (i + 1))) (by rw [hfl]; simp)
    | none =>
      simp only [Option.map_none']
      by_cases hp : d.isPrefixOf (c :: cs)
      · rw [if_pos hp]
        constructor
        · intro h
          cases h
        · intro h
          exact absurd (by simpa [occursAt] using hp) (h 0)
      · rw [if_neg hp]
        constructor
        · intro _ i
          cases i with
          | zero =>
            simpa [occursAt] using
              fun hpre => hp (List.isPrefixOf_iff_prefix.2 hpre)
          | succ j => exact (ih.1 hfl) j
        · intro _
          rfl

/-- A successful `findLastSub` is an occurrence, and the rightmost one. -/
theorem findLastSub_eq_some (d : PyStr) (hne : d ≠ []) (hay : PyStr) (i : Nat)
    (h : findLastSub d hay = some i) :
    occursAt d hay i ∧ ∀ j, i < j → ¬ occursAt d hay j := by
  induction hay generalizing i with
  | nil =>
    simp only [findLastSub, if_neg hne] at h
    cases h
  | cons c cs ih =>
    simp only [findLastSub] at h
    cases hfl : findLastSub d cs with
    | some k =>
      rw [hfl] at h
      simp only [Option.map_some'] at h
      cases h
      obtain ⟨hocc, hmax⟩ := ih k hfl
      refine ⟨hocc, ?_⟩
      intro j hj
      cases j with
      | zero => omega
      | succ j' => exact hmax j' (by omega)
    | none =>
      rw [hfl] at h
      simp only [Option.map_none'] at h
      by_cases hp : d.isPrefixOf (c :: cs)
      · rw [if_pos hp] at h
        cases h
        refine ⟨by simpa [occursAt] using hp, ?_⟩
        intro j hj
        cases j with
        | zero => omega
        | succ j' => exact ((findLastSub_eq_none_iff d hne cs).1 hfl) j'
      · rw [if_neg hp] at h
        cases h

/-- Introduction rule for `findLastSub`: a rightmost occurrence is found. -/
theorem findLastSub_eq_some_of (d : PyStr) (hne : d ≠ []) (hay : PyStr)
    (i : Nat) (h1 : occursAt d hay i)
    (h2 : ∀ j, i < j → ¬ occursAt d hay j) :
    findLastSub d hay = some i := by
  cases hfl : findLastSub d hay with
  | none => exact absurd h1 (((findLastSub_eq_none_iff d hne hay).1 hfl) i)
  | some k =>
    obtain ⟨hk1, hk2⟩ := findLastSub_eq_some d hne hay k hfl
    rcases Nat.lt_trichotomy i k with hik | rfl | hik
    · exact absurd hk1 (h2 k hik)
    · rfl
    · exact absurd h1 (hk2 i hik)

end PyString

namespace PyString

/-- A split never produces an empty part list. -/
theorem splitGo_ne_nil (sep : PyStr) (fuel : Nat) (s : PyStr) :
    splitGo sep fuel s ≠ [] := by
  cases fuel with
  | zero => exact List.cons_ne_nil s []
  | succ fuel =>
    simp only [splitGo]
    cases findSub sep s with
    | none => exact List.cons_ne_nil s []
    | some i => exact List.cons_ne_nil _ _

/-- The default of `getLastD` is irrelevant on a nonempty list. -/
theorem getLastD_congr (l : List PyStr) (a b : PyStr) (h : l ≠ []) :
    l.getLastD a = l.getLastD b := by
  cases l with
  | nil => exact absurd rfl h
  | cons x xs => rw [List.getLastD_cons, List.getLastD_cons]

/-- Unfolding `afterLastOcc` on a found last occurrence. -/
theorem afterLastOcc_of_some (d w : PyStr) (i : Nat)
    (h : findLastSub d w = some i) :
    afterLastOcc d w = w.drop (i + d.length) := by
  unfold afterLastOcc
  rw [h]

/-- Unfolding `afterLastOcc` when the pattern does not occur. -/
theorem afterLastOcc_of_none (d w : PyStr) (h : findLastSub d w = none) :
    afterLastOcc d w = w := by
  unfold afterLastOcc
  rw [h]

/-- Cutting off the leftmost occurrence (and the pattern) does not change
the text after the last occurrence, for non-self-overlapping patterns. -/
theorem afterLastOcc_drop_first (d s : PyStr) (i : Nat) (hne : d ≠ [])
    (hno : noSelfOverlap d) (hf : findSub d s = some i) :
    afterLastOcc d s = afterLastOcc d (s.drop (i + d.length)) := by
  obtain ⟨hocc, _⟩ := findSub_eq_some d s i hf
  cases hfl : findLastSub d (s.drop (i + d.length)) with
  | some j =>
    obtain ⟨hjocc, hjmax⟩ :=
      findLastSub_eq_some d hne (s.drop (i + d.length)) j hfl
    have h1 : occursAt d s (i + d.length + j) :=
      (occursAt_drop d s (i + d.length) j).1 hjocc
    have h2 : ∀ m, i + d.length + j < m → ¬ occursAt d s m := by
      intro m hm hoccm
      obtain ⟨m', rfl⟩ : ∃ m', m = i + d.length + m' :=
        ⟨m - (i + d.length), by omega⟩
      exact hjmax m' (by omega) ((occursAt_drop d s (i + d.length) m').2 hoccm)
    have hlast : findLastSub d s = some (i + d.length + j) :=
      findLastSub_eq_some_of d hne s (i + d.length + j) h1 h2
    rw [afterLastOcc_of_some d s _ hlast,
      afterLastOcc_of_some d _ j hfl, List.drop_drop]
    congr 1
    omega
  | none =>
    have hnone := (findLastSub_eq_none_iff d hne (s.drop (i + d.length))).1 hfl
    have hmax : ∀ j, i < j → ¬ occursAt d s j := by
      intro j hj hoccj
      by_cases hcase : j < i + d.length
      · have h0 : 0 < j - i := by omega
        have hlt : j - i < d.length := by omega
        exact hno s i (j - i) h0 hlt hocc
          (by rwa [show i + (j - i) = j by omega])
      · apply hnone (j - (i + d.length))
        apply (occursAt_drop d s (i + d.length) (j - (i + d.length))).2
        rwa [show i + d.length + (j - (i + d.length)) = j by omega]
    have hlast : findLastSub d s = some i :=
      findLastSub_eq_some_of d hne s i hocc hmax
    rw [afterLastOcc_of_some d s i hlast, afterLastOcc_of_none d _ hfl]

/-- The last part of a Python `split` is the text after the last occurrence
of the separator, for nonempty non-self-overlapping separators. -/
theorem getLastD_splitGo (d : PyStr) (hne : d ≠ []) (hno : noSelfOverlap d) :
    ∀ (fuel : Nat) (s : PyStr), s.length < fuel →
      (splitGo d fuel s).getLastD [] = afterLastOcc d s := by
  intro fuel
  induction fuel with
  | zero =>
    intro s hs
    omega
  | succ fuel ih =>
    intro s hs
    simp only [splitGo]
    cases hf : findSub d s with
    | none =>
      have hnone : findLastSub d s = none :=
        (findLastSub_eq_none_iff d hne s).2 ((findSub_eq_none_iff d hne s).1 hf)
      unfold afterLastOcc
      rw [hnone]
      rfl
    | some i =>
      have hsne : s ≠ [] := by
        intro hnil
        subst hnil
        simp only [findSub, if_neg hne] at hf
        cases hf
      have hdpos : 0 < d.length := List.length_pos.2 hne
      have hlen : (s.drop (i + d.length)).length < fuel := by
        rw [List.length_drop]
        have hspos : 0 < s.length := List.length_pos.2 hsne
        omega
      have hrest := splitGo_ne_nil d fuel (s.drop (i + d.length))
      rw [List.getLastD_cons,
        getLastD_congr _ _ [] hrest,
        ih (s.drop (i + d.length)) hlen]
      exact (afterLastOcc_drop_first d s i hne hno hf).symm

/-- Python `split` (full fuel) version of `getLastD_splitGo`. -/
theorem getLastD_split (d : PyStr) (hne : d ≠ []) (hno : noSelfOverlap d)
    (s : PyStr) :
    (split d s).getLastD [] = afterLastOcc d s :=
  getLastD_splitGo d hne hno (s.length + 1) s (Nat.lt_succ_self _)

/-- One-character patterns never overlap themselves. -/
theorem noSelfOverlap_single (a : Char) : noSelfOverlap [a] := by
  intro w i k hk0 hk1 _ _
  simp only [List.length_singleton] at hk1
  omega

/-- Two-character patterns with distinct characters never overlap
themselves. -/
theorem noSelfOverlap_pair (a b : Char) (hab : a ≠ b) :
    noSelfOverlap [a, b] := by
  intro w i k hk0 hk2 h1 h2
  have hk : k = 1 := by
    simp only [List.length_cons, List.length_nil] at hk2
    omega
  subst hk
  rcases h1 with ⟨t1, ht1⟩
  rcases h2 with ⟨t2, ht2⟩
  have hdrop : w.drop (i + 1) = b :: t1 := by
    have : w.drop (i + 1) = (w.drop i).drop 1 := by
      rw [List.drop_drop]
    rw [this, ← ht1]
    rfl
  rw [hdrop] at ht2
  simp only [List.cons_append, List.nil_append] at ht2
  exact hab (List.cons.inj ht2).1

end PyString

/-- Unfolding equation for `extractQueryLoop` with its `let` resolved. -/
theorem Autocomplete.extractQueryLoop_cons (d : PyStr) (ds : List PyStr)
    (w : PyStr) :
    Autocomplete.extractQueryLoop (d :: ds) w
      = if containsSub d w then
          (if ¬ (strip ((split d w).getLastD [])).isEmpty then
             strip ((split d w).getLastD [])
           else Autocomplete.extractQueryLoop ds w)
        else Autocomplete.extractQueryLoop ds w := rfl

/-- The source's delimiter loop agrees with the amended claim's loop for
nonempty, non-self-overlapping delimiters. -/
theorem extractQueryLoop_eq_amendedLoop (ds : List PyStr) (w : PyStr)
    (hds : ∀ d ∈ ds, d ≠ [] ∧ noSelfOverlap d) :
    Autocomplete.extractQueryLoop ds w = specExtractQueryAmendedLoop ds w := by
  induction ds with
  | nil => rfl
  | cons d ds ih =>
    obtain ⟨hne, hno⟩ := hds d (List.mem_cons_self d ds)
    have hrest := ih (fun x hx => hds x (List.mem_cons_of_mem d hx))
    rw [Autocomplete.extractQueryLoop_cons]
    unfold specExtractQueryAmendedLoop
    rw [getLastD_split d hne hno w]
    by_cases hc : containsSub d w = true
    · rw [if_pos hc, if_pos hc]
      by_cases hb : (strip (afterLastOcc d w)).isEmpty = true
      · rw [if_neg (not_not_intro hb), if_neg (not_not_intro hb), hrest]
      · rw [if_pos hb, if_pos hb]
    · rw [if_neg hc, if_neg hc, hrest]

/-- C6 (amended): query extraction strips the last `context_window`
characters, then tries the delimiters in the fixed order `'. '`, `'! '`,
`'? '`, newline; for the first delimiter that occurs in the stripped window
and whose text after its *last occurrence* strips to something non-blank,
it keeps that stripped trailing text; otherwise it uses the whole stripped
window. -/
theorem extract_query_eq_amended_spec (context_window : Nat)
    (context : PyStr) :
    Autocomplete.extract_query context_window context
      = specExtractQueryAmended context_window context := by
  unfold Autocomplete.extract_query specExtractQueryAmended
  apply extractQueryLoop_eq_amendedLoop
  intro d hd
  simp only [List.mem_cons, List.not_mem_nil, or_false] at hd
  rcases hd with rfl | rfl | rfl | rfl
  · exact ⟨by decide, noSelfOverlap_pair '.' ' ' (by decide)⟩
  · exact ⟨by decide, noSelfOverlap_pair '!' ' ' (by decide)⟩
  · exact ⟨by decide, noSelfOverlap_pair '?' ' ' (by decide)⟩
  · exact ⟨by decide, noSelfOverlap_single '\n'⟩
